import Mathlib

/-!
Verification development for the `watson_decision_optimization` sample
repository.  The Python sources (`sample/model.py`, `sample/model_execute.py`,
`sample/model_deploy.py`, `sample/utils.py`) are shallowly embedded below:
pure data flow becomes Lean functions, Python exceptions become `Except`
values, external vendor calls are modelled by abstract parameters, and the
effect order of scripts is recorded as explicit traces.
-/

namespace Watson

/-! ## JSON values and Python dictionary semantics

`json.load` produces null, booleans, numbers, strings, arrays or objects.
Objects are association lists with unique keys (Python `dict` preserves
insertion order; assignment overwrites in place or appends). -/

inductive J where
  | null : J
  | bool (b : Bool) : J
  | num (q : ℚ) : J
  | str (s : String) : J
  | arr (l : List J) : J
  | obj (l : List (String × J)) : J

/-- Lookup in an association list, as Python `d[k]` succeeds. -/
def dictGet {V : Type} (l : List (String × V)) (k : String) : Option V :=
  match l with
  | [] => none
  | (k', v) :: t => if k' = k then some v else dictGet t k

/-- Python `d[k] = v`: overwrite the existing slot for `k`, else append. -/
def dictSet {V : Type} (l : List (String × V)) (k : String) (v : V) :
    List (String × V) :=
  match l with
  | [] => [(k, v)]
  | (k', v') :: t => if k' = k then (k', v) :: t else (k', v') :: dictSet t k v

/-! ## `utils.py`: settings accessors (lines 196–221)

`store_deployment_id` and `store_publishing_id` read the `settings.json`
dictionary, assign a single key and write the dictionary back; we model the
dictionary transformation they apply. -/

def store_deployment_id (settings : List (String × J)) (deployment_id : J) :
    List (String × J) :=
  dictSet settings "deployment_id" deployment_id

def store_publishing_id (settings : List (String × J)) (deployment_id : J) :
    List (String × J) :=
  dictSet settings "publishing_id" deployment_id

/-! ## `utils.py`: credential/settings readers (lines 53–145)

A JSON file on disk is either missing, present but not valid JSON, or
parses to a `J` value.  `load_from_disk` on a `.json` path runs `json.load`;
subscripting the result behaves as in Python: key lookup on objects
(`KeyError` when absent), `TypeError` on any non-object value. -/

inductive FileContent where
  | missing : FileContent
  | invalid : FileContent
  | valid (j : J) : FileContent

inductive PyExc where
  | fileNotFound (msg : String) : PyExc
  | jsonDecode : PyExc
  | keyError (msg : String) : PyExc
  | typeError : PyExc

/-- `load_from_disk` on a `.json` path (utils.py lines 20–22). -/
def load_from_disk_json (fc : FileContent) : Except PyExc J :=
  match fc with
  | .missing => .error (.fileNotFound "No such file or directory")
  | .invalid => .error .jsonDecode
  | .valid j => .ok j

/-- Python subscript `j[k]` on a decoded JSON value. -/
def py_subscript (j : J) (k : String) : Except PyExc J :=
  match j with
  | .obj l =>
      match dictGet l k with
      | some v => .ok v
      | none => .error (.keyError k)
  | _ => .error .typeError

def auth_file_structure : String := "\x7b\"api_key\": \"API_KEY_HERE\"\x7d"

def auth_file_structure_error_msg : String :=
  "Please provide the auth.json in the following structure: " ++ auth_file_structure

def auth_file_missing_error_msg : String :=
  "Please place the auth.json file in the root of project directory."

/-- `get_api_key` (utils.py lines 53–83): `load_from_disk(auth_path)['api_key']`
wrapped in `try/except` re-raising `FileNotFoundError` with a file-missing
message and `JSONDecodeError`/`KeyError` as `KeyError` with a file-structure
message.  A `TypeError` from subscripting a non-object is not caught. -/
def get_api_key (auth_json : FileContent) : Except PyExc J :=
  match (load_from_disk_json auth_json).bind (fun j => py_subscript j "api_key") with
  | .ok v => .ok v
  | .error (.fileNotFound _) => .error (.fileNotFound auth_file_missing_error_msg)
  | .error .jsonDecode => .error (.keyError auth_file_structure_error_msg)
  | .error (.keyError _) => .error (.keyError auth_file_structure_error_msg)
  | .error .typeError => .error .typeError

def project_file_structure : String := "\x7b\"project_id\": \"PROJECT_ID_HERE\"\x7d"

def project_file_structure_error_msg : String :=
  "Please provide the settings.json in the following structure: " ++ project_file_structure

def settings_file_missing_error_msg : String :=
  "Please place the settings.json file in the root of project directory."

/-- `get_project_id` (utils.py lines 86–114), same shape over `settings.json`. -/
def get_project_id (settings_json : FileContent) : Except PyExc J :=
  match (load_from_disk_json settings_json).bind (fun j => py_subscript j "project_id") with
  | .ok v => .ok v
  | .error (.fileNotFound _) => .error (.fileNotFound settings_file_missing_error_msg)
  | .error .jsonDecode => .error (.keyError project_file_structure_error_msg)
  | .error (.keyError _) => .error (.keyError project_file_structure_error_msg)
  | .error .typeError => .error .typeError

def space_file_structure : String := "\x7b\"space_uid\": \"SPACE_UID\"\x7d"

def space_file_structure_error_msg : String :=
  "Please provide the settings.json in the following structure: " ++ space_file_structure

/-- `get_space_uid` (utils.py lines 117–145), same shape over `settings.json`. -/
def get_space_uid (settings_json : FileContent) : Except PyExc J :=
  match (load_from_disk_json settings_json).bind (fun j => py_subscript j "space_uid") with
  | .ok v => .ok v
  | .error (.fileNotFound _) => .error (.fileNotFound settings_file_missing_error_msg)
  | .error .jsonDecode => .error (.keyError space_file_structure_error_msg)
  | .error (.keyError _) => .error (.keyError space_file_structure_error_msg)
  | .error .typeError => .error .typeError

/-- Does the computation raise a `KeyError` (any message)? -/
def isKeyError (r : Except PyExc J) : Bool :=
  match r with
  | .error (.keyError _) => true
  | _ => false

/-- The common shape of the three readers above, used to prove their
properties once. -/
def json_key_reader (key structMsg missMsg : String) (fc : FileContent) :
    Except PyExc J :=
  match (load_from_disk_json fc).bind (fun j => py_subscript j key) with
  | .ok v => .ok v
  | .error (.fileNotFound _) => .error (.fileNotFound missMsg)
  | .error .jsonDecode => .error (.keyError structMsg)
  | .error (.keyError _) => .error (.keyError structMsg)
  | .error .typeError => .error .typeError

/-! ## `model.py`: reading inputs (lines 14–40)

`os.path.splitext` splits a basename at its last dot, except that a name
whose characters before that dot are all dots (e.g. `.csv`, `..csv`) has no
extension.  `get_all_inputs` keeps exactly the listing entries whose
extension is `.csv`, keying each parsed DataFrame by the stem. -/

/-- Index of the last `.` in a character list, if any. -/
def lastDotIdx : List Char → Option Nat
  | [] => none
  | c :: cs =>
      match lastDotIdx cs with
      | some i => some (i + 1)
      | none => if c = '.' then some 0 else none

/-- `os.path.splitext` on a basename (no directory separators). -/
def splitext (p : String) : String × String :=
  match lastDotIdx p.toList with
  | none => (p, "")
  | some i =>
      if (p.toList.take i).any (fun c => c ≠ '.') then
        (⟨p.toList.take i⟩, ⟨p.toList.drop i⟩)
      else (p, "")

/-- `get_all_inputs` (model.py lines 14–40): filter the directory listing to
`.csv` files and read each into a DataFrame keyed by the stem.  Reading a
stream (`pd.read_csv`) is the abstract `read_csv` parameter. -/
def get_all_inputs {DF : Type} (listing : List String) (read_csv : String → DF) :
    List (String × DF) :=
  let csv_files := listing.filter (fun file_name => (splitext file_name).2 = ".csv")
  csv_files.map (fun file_name => ((splitext file_name).1, read_csv file_name))

/-! ## `model.py`: building the model (lines 43–100)

`ProductInfo` is indexed by `ResourceName` with the four numeric columns the
model uses; `Availability` is indexed by `Resource` with a `Capacity`
column.  Docplex variables are continuous and named by
`name + key_format % key`; linear expressions are coefficient/variable-name
term lists evaluated against an assignment. -/

structure ProductRow where
  resourceName : String
  requiredThisWeek : ℚ
  assemblyHours : ℚ
  paintingHours : ℚ
  profitMargin : ℚ

structure ModelInputs where
  productInfo : List ProductRow
  availability : List (String × ℚ)

/-- `availability.loc[r, 'Capacity']` after `set_index('Resource')`. -/
def locCapacity (availability : List (String × ℚ)) (r : String) : Option ℚ :=
  dictGet availability r

/-- Variable name produced by `continuous_var_dict(name='QtyToProduce', key_format='__%s')`. -/
def qtyVar (m : String) : String := "QtyToProduce__" ++ m

/-- Variable name produced by `continuous_var_dict(name='UnfulfilledDemand', key_format='__%s')`. -/
def slackVar (m : String) : String := "UnfulfilledDemand__" ++ m

inductive CmpSense where
  | le : CmpSense
  | ge : CmpSense
deriving DecidableEq

structure LinCon where
  terms : List (ℚ × String)
  sense : CmpSense
  rhs : ℚ

/-- Value of a linear term list under an assignment of the decision variables. -/
def evalTerms (a : String → ℚ) (ts : List (ℚ × String)) : ℚ :=
  (ts.map (fun t => t.1 * a t.2)).sum

/-- An assignment satisfies a linear constraint. -/
def satisfies (a : String → ℚ) (c : LinCon) : Prop :=
  match c.sense with
  | .le => evalTerms a c.terms ≤ c.rhs
  | .ge => evalTerms a c.terms ≥ c.rhs

inductive ObjSense where
  | maximize : ObjSense
  | minimize : ObjSense
deriving DecidableEq

structure LPModel where
  name : String
  constraints : List LinCon
  kpis : List (String × List (ℚ × String))
  objective : List (ℚ × String)
  objSense : ObjSense

/-- Demand constraint added for material `m` (model.py lines 72–74):
`QtyToProduce__m + UnfulfilledDemand__m >= RequiredThisWeek_m`. -/
def demandCon (r : ProductRow) : LinCon :=
  ⟨[(1, qtyVar r.resourceName), (1, slackVar r.resourceName)], .ge, r.requiredThisWeek⟩

/-- `create_base_model` (model.py lines 43–100).  `none` models the pandas
`KeyError` when the `Availability` table lacks the `Assembly` or `Painting`
row; otherwise the constraint list is the per-material demand constraints in
index order followed by the assembly and painting capacity constraints. -/
def create_base_model (inputs : ModelInputs) : Option LPModel := do
  let requirement := inputs.productInfo
  let capAssembly ← locCapacity inputs.availability "Assembly"
  let capPainting ← locCapacity inputs.availability "Painting"
  let demand := requirement.map demandCon
  let assembly_constraint : LinCon :=
    ⟨requirement.map (fun r => (r.assemblyHours, qtyVar r.resourceName)), .le, capAssembly⟩
  let painting_constraint : LinCon :=
    ⟨requirement.map (fun r => (r.paintingHours, qtyVar r.resourceName)), .le, capPainting⟩
  let projected_profit := requirement.map (fun r => (r.profitMargin, qtyVar r.resourceName))
  let unfulfilled_demand := requirement.map (fun r => ((1 : ℚ), slackVar r.resourceName))
  pure
    { name := "car_production"
      constraints := demand ++ [assembly_constraint, painting_constraint]
      kpis := [("Projected Profit", projected_profit),
               ("Unfulfilled Demand", unfulfilled_demand)]
      objective := projected_profit
      objSense := .maximize }

/-! ## `model.py`: the script pipeline (lines 193–198)

Each stage is an abstract function that may emit externally visible effects
(a `List String` log) besides its value; the script body is the literal
sequence of the five calls, threading each result into the next call. -/

structure ScriptEnv (I M S O : Type) where
  get_all_inputs : List String × I
  create_base_model : I → List String × M
  solve_model : M → List String × S
  parse_solution : S → List String × O
  outputs_to_csv : O → List String

/-- The `__main__` block of model.py (lines 193–198). -/
def model_py_main {I M S O : Type} (env : ScriptEnv I M S O) : List String :=
  let input_files := env.get_all_inputs
  let model_formulation := env.create_base_model input_files.2
  let solved_model := env.solve_model model_formulation.2
  let output_files := env.parse_solution solved_model.2
  input_files.1 ++ model_formulation.1 ++ solved_model.1 ++ output_files.1 ++
    env.outputs_to_csv output_files.2

/-! ## `model_execute.py`: polling loop (lines 27–30, 73–79)

`status` is the stream of successive `get_job_status(job_id).get('state')`
answers; query `i` is the `i`-th call made.  `wait_longer` sleeps a fixed 10
seconds and adds 10 to the elapsed-time counter. -/

/-- `wait_longer` (model_execute.py lines 27–30): first component is the
seconds slept (`time.sleep(10)`), second the updated counter. -/
def wait_longer (waited_for_n_seconds : Nat) : Nat × Nat :=
  (10, waited_for_n_seconds + 10)

/-- The `while` loop of model_execute.py lines 73–75.  `i` is the index of
the next status query, `elapsed` the counter; the result is the pair
(queries consumed so far = loop iterations, final counter). -/
def poll_loop (status : Nat → String) (i elapsed : Nat) : Nat × Nat :=
  if h : status i ≠ "completed" ∧ elapsed < 300 then
    poll_loop status (i + 1) (wait_longer elapsed).2
  else (i, elapsed)
termination_by 300 - elapsed
decreasing_by simp [wait_longer]; omega

/-- Observable outcome of the tail of the script (lines 76–79). -/
structure ExecOutcome where
  processed : Bool
  wrote : List String
  printed : List String
deriving DecidableEq

/-- Lines 76–79 of model_execute.py: after the loop one fresh status query
decides between `process_results()` (which writes `solution.csv`) and
printing the timeout message. -/
def execute_after_loop (status : Nat → String) : ExecOutcome :=
  let r := poll_loop status 0 0
  if status (r.1 + 1) = "completed" then
    { processed := true, wrote := ["solution.csv"], printed := [] }
  else
    { processed := false, wrote := [],
      printed := ["Job hasn't completed successfully in 5 minutes."] }

/-! ## `model_execute.py`: job payload (lines 33–50, 53–70) -/

structure JobPayload (DF : Type) where
  input_data : List (String × DF)
  output_data : List String
deriving DecidableEq

/-- `define_job_payload` (model_execute.py lines 33–50); `inputs[k]` raises
`KeyError` when absent, modelled by `none`. -/
def define_job_payload {DF : Type} (inputs : String → Option DF) :
    Option (JobPayload DF) := do
  let avail ← inputs "Availability"
  let pinfo ← inputs "ProductInfo"
  pure { input_data := [("Availability.csv", avail), ("ProductInfo.csv", pinfo)]
         output_data := [".*.csv"] }

/-- Lines 55–70 of model_execute.py up to `create_job`: the script fetches
`solve_parameters` and then builds `job_payload_ref`, which is what is
submitted. -/
def model_execute_submission {DF SP : Type} (inputs : String → Option DF)
    (get_solve_parameters : SP) : Option (JobPayload DF) :=
  let solve_parameters := get_solve_parameters
  let job_payload_ref := define_job_payload inputs
  job_payload_ref

/-! ## `utils.py`: publish and deploy with optional deletion (lines 148–194)

Vendor calls are modelled by their visible events; the environment says what
the previous ids are (`none` models `get_*_id` raising) and whether each
vendor delete call raises. -/

inductive DeployEvent where
  | deleteDeployment (id : String) : DeployEvent
  | deletePublication (id : String) : DeployEvent
  | exceptionLogged : DeployEvent
  | publishModel (id : String) : DeployEvent
  | storePublishing (id : String) : DeployEvent
  | createDeployment (id : String) : DeployEvent
  | storeDeployment (id : String) : DeployEvent
deriving DecidableEq

structure WmlEnv where
  prevDeploymentId : Option String
  deleteDeploymentRaises : Bool
  prevPublishingId : Option String
  deletePublicationRaises : Bool
  publishedModelId : String
  deploymentId : String

/-- `delete_previous_deployment` (utils.py lines 179–185): any exception is
caught and logged. -/
def delete_previous_deployment (env : WmlEnv) : List DeployEvent :=
  match env.prevDeploymentId with
  | none => [.exceptionLogged]
  | some id =>
      if env.deleteDeploymentRaises then [.deleteDeployment id, .exceptionLogged]
      else [.deleteDeployment id]

/-- `delete_previous_publication` (utils.py lines 188–194). -/
def delete_previous_publication (env : WmlEnv) : List DeployEvent :=
  match env.prevPublishingId with
  | none => [.exceptionLogged]
  | some id =>
      if env.deletePublicationRaises then [.deletePublication id, .exceptionLogged]
      else [.deletePublication id]

/-- `delete_previous_publication_and_deployment` (utils.py lines 174–176):
deployment first, then publication. -/
def delete_previous_publication_and_deployment (env : WmlEnv) : List DeployEvent :=
  delete_previous_deployment env ++ delete_previous_publication env

/-- Events of publishing then deploying (utils.py lines 167–171). -/
def publish_deploy_events (env : WmlEnv) : List DeployEvent :=
  [.publishModel env.publishedModelId, .storePublishing env.publishedModelId,
   .createDeployment env.deploymentId, .storeDeployment env.deploymentId]

/-- `publish_and_deploy_model` (utils.py lines 148–171) as its event trace. -/
def publish_and_deploy_model (env : WmlEnv) (delete_previous : Bool) :
    List DeployEvent :=
  (if delete_previous then delete_previous_publication_and_deployment env else []) ++
    publish_deploy_events env

/-- Is the event an attempted vendor deletion? -/
def isDeletionEvent : DeployEvent → Bool
  | .deleteDeployment _ => true
  | .deletePublication _ => true
  | _ => false

/-! ## Theorems -/

theorem dictGet_dictSet_self {V : Type} (l : List (String × V)) (k : String) (v : V) :
    dictGet (dictSet l k v) k = some v := by
  induction l with
  | nil => simp [dictGet, dictSet]
  | cons hd t ih =>
      obtain ⟨k', v'⟩ := hd
      by_cases h : k' = k <;> simp [dictGet, dictSet, h, ih]

theorem dictGet_dictSet_ne {V : Type} (l : List (String × V)) (k k' : String) (v : V)
    (h : k' ≠ k) : dictGet (dictSet l k v) k' = dictGet l k' := by
  induction l with
  | nil => simp [dictGet, dictSet, Ne.symm h]
  | cons hd t ih =>
      obtain ⟨k0, v0⟩ := hd
      by_cases h0 : k0 = k
      · subst h0
        simp [dictGet, dictSet, Ne.symm h]
      · simp [dictGet, dictSet, h0, ih]

/-- C9: `store_deployment_id` and `store_publishing_id` each overwrite only
their single key in the settings dictionary and leave every other key-value
pair unchanged. -/
theorem store_ids_frame (settings : List (String × J)) (v : J) (k : String) :
    dictGet (store_deployment_id settings v) "deployment_id" = some v ∧
    (k ≠ "deployment_id" →
      dictGet (store_deployment_id settings v) k = dictGet settings k) ∧
    dictGet (store_publishing_id settings v) "publishing_id" = some v ∧
    (k ≠ "publishing_id" →
      dictGet (store_publishing_id settings v) k = dictGet settings k) :=
  ⟨dictGet_dictSet_self settings _ v,
   fun h => dictGet_dictSet_ne settings _ k v h,
   dictGet_dictSet_self settings _ v,
   fun h => dictGet_dictSet_ne settings _ k v h⟩

theorem store_ids_frame_witness :
    dictGet (store_deployment_id [("space_uid", J.str "s")] (J.str "d"))
      "deployment_id" = some (J.str "d") ∧
    dictGet (store_deployment_id [("space_uid", J.str "s")] (J.str "d"))
      "space_uid" = some (J.str "s") := by
  have h := store_ids_frame [("space_uid", J.str "s")] (J.str "d") "space_uid"
  refine ⟨h.1, ?_⟩
  rw [h.2.1 (by decide)]
  rfl

/-- C1: the `__main__` block of model.py runs exactly the five-stage
pipeline read inputs → build model → solve → parse solution → write CSVs,
in that order, each stage consuming the previous stage's result. -/
theorem model_py_main_pipeline {I M S O : Type} (env : ScriptEnv I M S O) :
    model_py_main env =
      env.get_all_inputs.1 ++
      (env.create_base_model env.get_all_inputs.2).1 ++
      (env.solve_model (env.create_base_model env.get_all_inputs.2).2).1 ++
      (env.parse_solution
        (env.solve_model (env.create_base_model env.get_all_inputs.2).2).2).1 ++
      env.outputs_to_csv
        (env.parse_solution
          (env.solve_model (env.create_base_model env.get_all_inputs.2).2).2).2 := rfl

theorem model_py_main_pipeline_witness :
    model_py_main
      { get_all_inputs := (["read"], (1 : Nat)),
        create_base_model := fun n => (["build"], n + 1),
        solve_model := fun n => (["solve"], n + 1),
        parse_solution := fun n => (["parse"], n + 1),
        outputs_to_csv := fun n => [toString n ++ ".csv"] } =
      ["read", "build", "solve", "parse", "4.csv"] := by
  rw [model_py_main_pipeline]
  rfl

/-- C10: the job payload submitted by model_execute.py consists only of the
two INPUT_DATA entries and the OUTPUT_DATA pattern, and it never depends on
the value returned by `get_solve_parameters`. -/
theorem job_payload_independent_of_solve_parameters {DF SP1 SP2 : Type}
    (inputs : String → Option DF) (sp1 : SP1) (sp2 : SP2) (av pinfo : DF)
    (hA : inputs "Availability" = some av)
    (hP : inputs "ProductInfo" = some pinfo) :
    model_execute_submission inputs sp1 = model_execute_submission inputs sp2 ∧
    model_execute_submission inputs sp1 =
      some { input_data := [("Availability.csv", av), ("ProductInfo.csv", pinfo)],
             output_data := [".*.csv"] } := by
  refine ⟨rfl, ?_⟩
  simp [model_execute_submission, define_job_payload, hA, hP]

theorem job_payload_independent_witness :
    model_execute_submission
        (fun s => if s = "Availability" then some 1 else
          if s = "ProductInfo" then some 2 else none) true =
      model_execute_submission
        (fun s => if s = "Availability" then some 1 else
          if s = "ProductInfo" then some 2 else none) (0 : Nat) ∧
    model_execute_submission
        (fun s => if s = "Availability" then some 1 else
          if s = "ProductInfo" then some 2 else none) true =
      some { input_data := [("Availability.csv", 1), ("ProductInfo.csv", 2)],
             output_data := [".*.csv"] } :=
  job_payload_independent_of_solve_parameters _ true (0 : Nat) 1 2 (by simp) (by simp)

/-- C6: with `delete_previous=True`, `publish_and_deploy_model` attempts the
previous-deployment deletion and then the previous-publication deletion,
swallows any exception raised there (logging it), and always continues with
publish and deploy; with `delete_previous=False` no deletion is attempted. -/
theorem publish_and_deploy_delete_semantics (env : WmlEnv) :
    publish_and_deploy_model env true =
      (delete_previous_deployment env ++ delete_previous_publication env) ++
        publish_deploy_events env ∧
    publish_and_deploy_model env false = publish_deploy_events env ∧
    (∀ e ∈ publish_and_deploy_model env false, isDeletionEvent e = false) ∧
    (∀ b : Bool, publish_deploy_events env <:+ publish_and_deploy_model env b) ∧
    (env.deleteDeploymentRaises = true →
      DeployEvent.exceptionLogged ∈ delete_previous_deployment env) ∧
    (env.deletePublicationRaises = true →
      DeployEvent.exceptionLogged ∈ delete_previous_publication env) := by
  refine ⟨rfl, rfl, ?_, ?_, ?_, ?_⟩
  · intro e he
    simp only [publish_and_deploy_model, if_neg Bool.false_ne_true,
      List.nil_append, publish_deploy_events, List.mem_cons,
      List.not_mem_nil, or_false] at he
    rcases he with h | h | h | h <;> subst h <;> rfl
  · intro b
    exact ⟨_, rfl⟩
  · intro h
    unfold delete_previous_deployment
    cases env.prevDeploymentId <;> simp [h]
  · intro h
    unfold delete_previous_publication
    cases env.prevPublishingId <;> simp [h]

theorem publish_and_deploy_delete_semantics_witness :
    publish_and_deploy_model
        ⟨some "d0", true, some "p0", false, "pub1", "dep1"⟩ true =
      [DeployEvent.deleteDeployment "d0", DeployEvent.exceptionLogged,
       DeployEvent.deletePublication "p0",
       DeployEvent.publishModel "pub1", DeployEvent.storePublishing "pub1",
       DeployEvent.createDeployment "dep1", DeployEvent.storeDeployment "dep1"] := by
  have h := publish_and_deploy_delete_semantics
    ⟨some "d0", true, some "p0", false, "pub1", "dep1"⟩
  rw [h.1]
  rfl

theorem get_api_key_eq_reader :
    get_api_key = json_key_reader "api_key"
      auth_file_structure_error_msg auth_file_missing_error_msg := rfl

theorem get_project_id_eq_reader :
    get_project_id = json_key_reader "project_id"
      project_file_structure_error_msg settings_file_missing_error_msg := rfl

theorem get_space_uid_eq_reader :
    get_space_uid = json_key_reader "space_uid"
      space_file_structure_error_msg settings_file_missing_error_msg := rfl

theorem json_key_reader_spec (key structMsg missMsg : String) (fc : FileContent) :
    (json_key_reader key structMsg missMsg fc =
        .error (.fileNotFound missMsg) ↔ fc = .missing) ∧
    (json_key_reader key structMsg missMsg fc = .error (.keyError structMsg) ↔
      (fc = .invalid ∨ ∃ l, fc = .valid (.obj l) ∧ dictGet l key = none)) ∧
    (∀ l v, fc = .valid (.obj l) → dictGet l key = some v →
      json_key_reader key structMsg missMsg fc = .ok v) ∧
    (∀ l, fc = .valid (.obj l) → dictGet l key = none →
      json_key_reader key structMsg missMsg fc = .error (.keyError structMsg)) ∧
    (∀ j, fc = .valid j → (∀ l, j ≠ .obj l) →
      json_key_reader key structMsg missMsg fc = .error .typeError) := by
  cases fc with
  | missing =>
      refine ⟨by simp [json_key_reader, load_from_disk_json, Except.bind], ?_, ?_, ?_, ?_⟩
      · simp [json_key_reader, load_from_disk_json, Except.bind]
      · intro l v h
        exact absurd h (by simp)
      · intro l h
        exact absurd h (by simp)
      · intro j h
        exact absurd h (by simp)
  | invalid =>
      refine ⟨by simp [json_key_reader, load_from_disk_json, Except.bind], ?_, ?_, ?_, ?_⟩
      · simp [json_key_reader, load_from_disk_json, Except.bind]
      · intro l v h
        exact absurd h (by simp)
      · intro l h
        exact absurd h (by simp)
      · intro j h
        exact absurd h (by simp)
  | valid j =>
      cases j with
      | obj l =>
          cases h : dictGet l key with
          | none =>
              refine ⟨?_, ?_, ?_, ?_, ?_⟩
              · simp [json_key_reader, load_from_disk_json, Except.bind, py_subscript, h]
              · simp only [json_key_reader, load_from_disk_json, Except.bind, py_subscript, h]
                simp only [true_iff, iff_true]
                exact Or.inr ⟨l, rfl, h⟩
              · intro l' v hl hv
                cases hl
                rw [h] at hv
                exact absurd hv (by simp)
              · intro l' hl _
                cases hl
                simp [json_key_reader, load_from_disk_json, Except.bind, py_subscript, h]
              · intro j hj hno
                cases hj
                exact absurd rfl (hno l)
          | some v =>
              refine ⟨?_, ?_, ?_, ?_, ?_⟩
              · simp [json_key_reader, load_from_disk_json, Except.bind, py_subscript, h]
              · simp only [json_key_reader, load_from_disk_json, Except.bind, py_subscript, h]
                constructor
                · intro hh
                  exact absurd hh (by simp)
                · rintro (hh | ⟨l', hl, hn⟩)
                  · exact absurd hh (by simp)
                  · cases hl
                    rw [h] at hn
                    exact absurd hn (by simp)
              · intro l' v' hl hv
                cases hl
                rw [h] at hv
                cases hv
                simp [json_key_reader, load_from_disk_json, Except.bind, py_subscript, h]
              · intro l' hl hn
                cases hl
                rw [h] at hn
                exact absurd hn (by simp)
              · intro j hj hno
                cases hj
                exact absurd rfl (hno l)
      | null =>
          refine ⟨by simp [json_key_reader, load_from_disk_json, Except.bind, py_subscript], ?_, ?_, ?_, ?_⟩
          · simp [json_key_reader, load_from_disk_json, Except.bind, py_subscript]
          · intro l v h
            exact absurd h (by simp)
          · intro l h
            exact absurd h (by simp)
          · intro j h
            cases h
            intro _
            simp [json_key_reader, load_from_disk_json, Except.bind, py_subscript]
      | bool b =>
          refine ⟨by simp [json_key_reader, load_from_disk_json, Except.bind, py_subscript], ?_, ?_, ?_, ?_⟩
          · simp [json_key_reader, load_from_disk_json, Except.bind, py_subscript]
          · intro l v h
            exact absurd h (by simp)
          · intro l h
            exact absurd h (by simp)
          · intro j h
            cases h
            intro _
            simp [json_key_reader, load_from_disk_json, Except.bind, py_subscript]
      | num q =>
          refine ⟨by simp [json_key_reader, load_from_disk_json, Except.bind, py_subscript], ?_, ?_, ?_, ?_⟩
          · simp [json_key_reader, load_from_disk_json, Except.bind, py_subscript]
          · intro l v h
            exact absurd h (by simp)
          · intro l h
            exact absurd h (by simp)
          · intro j h
            cases h
            intro _
            simp [json_key_reader, load_from_disk_json, Except.bind, py_subscript]
      | str s =>
          refine ⟨by simp [json_key_reader, load_from_disk_json, Except.bind, py_subscript], ?_, ?_, ?_, ?_⟩
          · simp [json_key_reader, load_from_disk_json, Except.bind, py_subscript]
          · intro l v h
            exact absurd h (by simp)
          · intro l h
            exact absurd h (by simp)
          · intro j h
            cases h
            intro _
            simp [json_key_reader, load_from_disk_json, Except.bind, py_subscript]
      | arr a =>
          refine ⟨by simp [json_key_reader, load_from_disk_json, Except.bind, py_subscript], ?_, ?_, ?_, ?_⟩
          · simp [json_key_reader, load_from_disk_json, Except.bind, py_subscript]
          · intro l v h
            exact absurd h (by simp)
          · intro l h
            exact absurd h (by simp)
          · intro j h
            cases h
            intro _
            simp [json_key_reader, load_from_disk_json, Except.bind, py_subscript]

/-- C5 counterexample: `auth.json` exists, is valid JSON (an empty array) and
lacks the `api_key` key, yet `get_api_key` raises `TypeError`, not the
`KeyError` the claim requires for this case. -/
theorem get_api_key_claim_counterexample :
    isKeyError (get_api_key (FileContent.valid (J.arr []))) = false ∧
    get_api_key (FileContent.valid (J.arr [])) = Except.error PyExc.typeError :=
  ⟨rfl, rfl⟩

/-- C5 amended: each reader raises `FileNotFoundError` with its file-missing
message iff its file is missing, raises `KeyError` with its file-structure
message iff the file exists and either is invalid JSON or parses to a JSON
object lacking the reader's key, and returns the stored value when the key
is present; when the file parses to a non-object JSON value the `TypeError`
from subscripting propagates uncaught instead of a `KeyError`. -/
theorem credentials_reader_errors (auth settings : FileContent) :
    (get_api_key auth = .error (.fileNotFound auth_file_missing_error_msg) ↔
      auth = .missing) ∧
    (get_api_key auth = .error (.keyError auth_file_structure_error_msg) ↔
      (auth = .invalid ∨ ∃ l, auth = .valid (.obj l) ∧ dictGet l "api_key" = none)) ∧
    (∀ l v, auth = .valid (.obj l) → dictGet l "api_key" = some v →
      get_api_key auth = .ok v) ∧
    (∀ j, auth = .valid j → (∀ l, j ≠ .obj l) →
      get_api_key auth = .error .typeError) ∧
    (get_project_id settings =
        .error (.fileNotFound settings_file_missing_error_msg) ↔
      settings = .missing) ∧
    (get_project_id settings = .error (.keyError project_file_structure_error_msg) ↔
      (settings = .invalid ∨
        ∃ l, settings = .valid (.obj l) ∧ dictGet l "project_id" = none)) ∧
    (∀ l v, settings = .valid (.obj l) → dictGet l "project_id" = some v →
      get_project_id settings = .ok v) ∧
    (get_space_uid settings =
        .error (.fileNotFound settings_file_missing_error_msg) ↔
      settings = .missing) ∧
    (get_space_uid settings = .error (.keyError space_file_structure_error_msg) ↔
      (settings = .invalid ∨
        ∃ l, settings = .valid (.obj l) ∧ dictGet l "space_uid" = none)) ∧
    (∀ l v, settings = .valid (.obj l) → dictGet l "space_uid" = some v →
      get_space_uid settings = .ok v) := by
  have ha := json_key_reader_spec "api_key"
    auth_file_structure_error_msg auth_file_missing_error_msg auth
  have hp := json_key_reader_spec "project_id"
    project_file_structure_error_msg settings_file_missing_error_msg settings
  have hs := json_key_reader_spec "space_uid"
    space_file_structure_error_msg settings_file_missing_error_msg settings
  rw [get_api_key_eq_reader, get_project_id_eq_reader, get_space_uid_eq_reader]
  exact ⟨ha.1, ha.2.1, ha.2.2.1, ha.2.2.2.2, hp.1, hp.2.1, hp.2.2.1,
    hs.1, hs.2.1, hs.2.2.1⟩

theorem credentials_reader_errors_witness :
    get_api_key (FileContent.valid (J.obj [("api_key", J.str "k")])) =
      Except.ok (J.str "k") ∧
    get_project_id (FileContent.valid (J.obj [("project_id", J.str "p")])) =
      Except.ok (J.str "p") ∧
    get_space_uid FileContent.missing =
      Except.error (PyExc.fileNotFound settings_file_missing_error_msg) :=
  ⟨(credentials_reader_errors (FileContent.valid (J.obj [("api_key", J.str "k")]))
      FileContent.missing).2.2.1 [("api_key", J.str "k")] (J.str "k") rfl (by simp [dictGet]),
   (credentials_reader_errors FileContent.missing
      (FileContent.valid (J.obj [("project_id", J.str "p")]))).2.2.2.2.2.2.1
      [("project_id", J.str "p")] (J.str "p") rfl (by simp [dictGet]),
   (credentials_reader_errors FileContent.missing
      FileContent.missing).2.2.2.2.2.2.2.1.mpr rfl⟩

theorem string_mk_append (a b : List Char) :
    (⟨a⟩ : String) ++ (⟨b⟩ : String) = ⟨a ++ b⟩ := rfl

theorem splitext_append (f : String) : (splitext f).1 ++ (splitext f).2 = f := by
  unfold splitext
  cases hidx : lastDotIdx f.toList with
  | none => simp
  | some i =>
      by_cases hany : (f.toList.take i).any (fun c => c ≠ '.')
      · simp only [if_pos hany]
        rw [string_mk_append, List.take_append_drop]
        rfl
      · simp only [if_neg hany]
        simp

/-- C8: the dictionary built by `get_all_inputs` has an entry exactly for
the listing entries whose extension is `.csv`, keyed by the name with the
extension removed and valued by the parsed DataFrame, and nothing else;
moreover a name whose extension is `.csv` is its stem followed by `.csv`. -/
theorem get_all_inputs_spec {DF : Type} (listing : List String)
    (read_csv : String → DF) (k : String) (v : DF) :
    ((k, v) ∈ get_all_inputs listing read_csv ↔
      ∃ f, f ∈ listing ∧ (splitext f).2 = ".csv" ∧
        k = (splitext f).1 ∧ v = read_csv f) ∧
    (∀ f : String, (splitext f).2 = ".csv" → f = (splitext f).1 ++ ".csv") := by
  constructor
  · simp only [get_all_inputs, List.mem_map, List.mem_filter, decide_eq_true_eq]
    constructor
    · rintro ⟨f, ⟨hf, hcsv⟩, heq⟩
      cases heq
      exact ⟨f, hf, hcsv, rfl, rfl⟩
    · rintro ⟨f, hf, hcsv, hk, hv⟩
      subst hk
      subst hv
      exact ⟨f, ⟨hf, hcsv⟩, rfl⟩
  · intro f hf
    rw [← hf, splitext_append]

theorem get_all_inputs_spec_witness :
    ("ProductInfo", (1 : Nat)) ∈
      get_all_inputs ["ProductInfo.csv", "readme.txt", ".csv"]
        (fun f => if f = "ProductInfo.csv" then 1 else 0) :=
  (get_all_inputs_spec ["ProductInfo.csv", "readme.txt", ".csv"]
      (fun f => if f = "ProductInfo.csv" then 1 else 0) "ProductInfo" 1).1.mpr
    ⟨"ProductInfo.csv", by simp, by decide, by decide, by decide⟩

theorem evalTerms_map {α : Type} (a : String → ℚ) (l : List α) (coef : α → ℚ)
    (nm : α → String) :
    evalTerms a (l.map fun r => (coef r, nm r)) =
      (l.map fun r => coef r * a (nm r)).sum := by
  simp [evalTerms, List.map_map, Function.comp_def]

/-- C2: given `ProductInfo` and `Availability` tables (with `Assembly` and
`Painting` capacities present and distinct resource names),
`create_base_model` adds one demand constraint
`QtyToProduce__m + UnfulfilledDemand__m ≥ RequiredThisWeek_m` per material,
exactly one assembly and one painting capacity constraint, and maximizes
the total profit margin; an assignment satisfies the model's constraints
exactly when it meets every demand inequality and both capacity bounds. -/
theorem create_base_model_spec (inp : ModelInputs) (capA capP : ℚ)
    (hA : locCapacity inp.availability "Assembly" = some capA)
    (hP : locCapacity inp.availability "Painting" = some capP)
    (hN : (inp.productInfo.map (fun r => r.resourceName)).Nodup) :
    ∃ M : LPModel, create_base_model inp = some M ∧
      M.constraints =
        inp.productInfo.map demandCon ++
          [⟨inp.productInfo.map (fun r => (r.assemblyHours, qtyVar r.resourceName)),
            .le, capA⟩,
           ⟨inp.productInfo.map (fun r => (r.paintingHours, qtyVar r.resourceName)),
            .le, capP⟩] ∧
      (∀ a : String → ℚ,
        (∀ c ∈ M.constraints, satisfies a c) ↔
          ((∀ r ∈ inp.productInfo,
              a (qtyVar r.resourceName) + a (slackVar r.resourceName) ≥
                r.requiredThisWeek) ∧
            (inp.productInfo.map
              (fun r => r.assemblyHours * a (qtyVar r.resourceName))).sum ≤ capA ∧
            (inp.productInfo.map
              (fun r => r.paintingHours * a (qtyVar r.resourceName))).sum ≤ capP)) ∧
      M.objSense = ObjSense.maximize ∧
      (∀ a : String → ℚ,
        evalTerms a M.objective =
          (inp.productInfo.map
            (fun r => r.profitMargin * a (qtyVar r.resourceName))).sum) := by
  refine ⟨{ name := "car_production"
            constraints :=
              inp.productInfo.map demandCon ++
                [⟨inp.productInfo.map (fun r => (r.assemblyHours, qtyVar r.resourceName)),
                  .le, capA⟩,
                 ⟨inp.productInfo.map (fun r => (r.paintingHours, qtyVar r.resourceName)),
                  .le, capP⟩]
            kpis :=
              [("Projected Profit",
                inp.productInfo.map (fun r => (r.profitMargin, qtyVar r.resourceName))),
               ("Unfulfilled Demand",
                inp.productInfo.map (fun r => ((1 : ℚ), slackVar r.resourceName)))]
            objective :=
              inp.productInfo.map (fun r => (r.profitMargin, qtyVar r.resourceName))
            objSense := .maximize }, ?_, rfl, ?_, rfl, ?_⟩
  · simp [create_base_model, hA, hP]
  · intro a
    simp only [List.forall_mem_append, List.forall_mem_cons, List.forall_mem_map,
      List.forall_mem_singleton, List.not_mem_nil, false_implies, implies_true,
      and_true]
    constructor
    · rintro ⟨hd, hc1, hc2⟩
      refine ⟨?_, ?_, ?_⟩
      · intro r hr
        have := hd r hr
        simpa [satisfies, demandCon, evalTerms] using this
      · simpa [satisfies, evalTerms_map] using hc1
      · simpa [satisfies, evalTerms_map] using hc2
    · rintro ⟨hd, hc1, hc2⟩
      refine ⟨?_, ?_, ?_⟩
      · intro r hr
        have := hd r hr
        simpa [satisfies, demandCon, evalTerms] using this
      · simpa [satisfies, evalTerms_map] using hc1
      · simpa [satisfies, evalTerms_map] using hc2
  · intro a
    exact evalTerms_map a inp.productInfo _ _

theorem create_base_model_spec_witness :
    Option.map (fun M => LPModel.objSense M)
      (create_base_model
        { productInfo :=
            [⟨"CAR1", 800, 2, 1, 30⟩, ⟨"CAR2", 1600, 1, 3, 40⟩],
          availability := [("Assembly", 100), ("Painting", 200)] }) =
      some ObjSense.maximize := by
  obtain ⟨M, h1, _, _, h4, _⟩ := create_base_model_spec
    { productInfo := [⟨"CAR1", 800, 2, 1, 30⟩, ⟨"CAR2", 1600, 1, 3, 40⟩],
      availability := [("Assembly", 100), ("Painting", 200)] } 100 200
    (by simp [locCapacity, dictGet]) (by simp [locCapacity, dictGet]) (by simp)
  rw [h1]
  simp [h4]

/-- C7: `create_base_model` registers exactly the two KPIs
`Projected Profit` and `Unfulfilled Demand`, both linear expressions over
the decision variables, whose values under any assignment are the total
profit margin of the produced quantities and the total slack. -/
theorem create_base_model_kpis (inp : ModelInputs) (capA capP : ℚ)
    (hA : locCapacity inp.availability "Assembly" = some capA)
    (hP : locCapacity inp.availability "Painting" = some capP) :
    ∃ M : LPModel, ∃ pExpr uExpr : List (ℚ × String),
      create_base_model inp = some M ∧
      M.kpis = [("Projected Profit", pExpr), ("Unfulfilled Demand", uExpr)] ∧
      (∀ a : String → ℚ,
        evalTerms a pExpr =
          (inp.productInfo.map
            (fun r => r.profitMargin * a (qtyVar r.resourceName))).sum) ∧
      (∀ a : String → ℚ,
        evalTerms a uExpr =
          (inp.productInfo.map (fun r => a (slackVar r.resourceName))).sum) := by
  refine ⟨{ name := "car_production"
            constraints :=
              inp.productInfo.map demandCon ++
                [⟨inp.productInfo.map (fun r => (r.assemblyHours, qtyVar r.resourceName)),
                  .le, capA⟩,
                 ⟨inp.productInfo.map (fun r => (r.paintingHours, qtyVar r.resourceName)),
                  .le, capP⟩]
            kpis :=
              [("Projected Profit",
                inp.productInfo.map (fun r => (r.profitMargin, qtyVar r.resourceName))),
               ("Unfulfilled Demand",
                inp.productInfo.map (fun r => ((1 : ℚ), slackVar r.resourceName)))]
            objective :=
              inp.productInfo.map (fun r => (r.profitMargin, qtyVar r.resourceName))
            objSense := .maximize },
    inp.productInfo.map (fun r => (r.profitMargin, qtyVar r.resourceName)),
    inp.productInfo.map (fun r => ((1 : ℚ), slackVar r.resourceName)),
    ?_, rfl, ?_, ?_⟩
  · simp [create_base_model, hA, hP]
  · intro a
    exact evalTerms_map a inp.productInfo _ _
  · intro a
    rw [evalTerms_map a inp.productInfo _ _]
    simp

theorem create_base_model_kpis_witness :
    Option.map (fun M => List.map Prod.fst (LPModel.kpis M))
      (create_base_model
        { productInfo :=
            [⟨"CAR1", 800, 2, 1, 30⟩, ⟨"CAR2", 1600, 1, 3, 40⟩],
          availability := [("Assembly", 100), ("Painting", 200)] }) =
      some ["Projected Profit", "Unfulfilled Demand"] := by
  obtain ⟨M, pExpr, uExpr, h1, h2, _, _⟩ := create_base_model_kpis
    { productInfo := [⟨"CAR1", 800, 2, 1, 30⟩, ⟨"CAR2", 1600, 1, 3, 40⟩],
      availability := [("Assembly", 100), ("Painting", 200)] } 100 200
    (by simp [locCapacity, dictGet]) (by simp [locCapacity, dictGet])
  rw [h1]
  simp [h2]

theorem poll_loop_spec (status : Nat → String) :
    ∀ n i : Nat, i + n = 30 →
      i ≤ (poll_loop status i (10 * i)).1 ∧
      (poll_loop status i (10 * i)).1 ≤ 30 ∧
      (poll_loop status i (10 * i)).2 = 10 * (poll_loop status i (10 * i)).1 ∧
      (status (poll_loop status i (10 * i)).1 = "completed" ∨
        (poll_loop status i (10 * i)).1 = 30) ∧
      (∀ j, i ≤ j → j < (poll_loop status i (10 * i)).1 →
        status j ≠ "completed") := by
  intro n
  induction n with
  | zero =>
      intro i hi
      have h30 : i = 30 := by omega
      subst h30
      rw [poll_loop, dif_neg (by rintro ⟨-, h2⟩; omega)]
      refine ⟨le_refl 30, le_refl 30, rfl, Or.inr rfl, ?_⟩
      intro j h1 h2
      simp at h2
      omega
  | succ n ih =>
      intro i hi
      have hlt : 10 * i < 300 := by omega
      by_cases hc : status i = "completed"
      · rw [poll_loop, dif_neg (by rintro ⟨h1, -⟩; exact h1 hc)]
        refine ⟨le_refl i, by omega, rfl, Or.inl hc, ?_⟩
        intro j h1 h2
        simp at h2
        omega
      · have hcond : status i ≠ "completed" ∧ 10 * i < 300 := ⟨hc, hlt⟩
        rw [poll_loop, dif_pos hcond]
        have h10 : (wait_longer (10 * i)).2 = 10 * (i + 1) := by
          simp [wait_longer]
          omega
        rw [h10]
        obtain ⟨g1, g2, g3, g4, g5⟩ := ih (i + 1) (by omega)
        refine ⟨by omega, g2, g3, g4, ?_⟩
        intro j hj1 hj2
        rcases Nat.eq_or_lt_of_le hj1 with he | hlt2
        · rw [← he]
          exact hc
        · exact g5 j (by omega) hj2

/-- C3: each loop iteration sleeps a fixed 10 seconds and adds exactly 10
to the elapsed counter, so the polling loop performs at most 30 iterations
(final counter 10·iterations, i.e. at most 300 seconds), and it stops as
soon as a polled state equals `completed`: no earlier poll returned
`completed`, and the exit poll is `completed` unless the full 30 iterations
elapsed. -/
theorem poll_loop_bounded (status : Nat → String) :
    (∀ w : Nat, wait_longer w = (10, w + 10)) ∧
    (poll_loop status 0 0).1 ≤ 30 ∧
    (poll_loop status 0 0).2 = 10 * (poll_loop status 0 0).1 ∧
    (status (poll_loop status 0 0).1 = "completed" ∨
      (poll_loop status 0 0).1 = 30) ∧
    (∀ j, j < (poll_loop status 0 0).1 → status j ≠ "completed") := by
  have h := poll_loop_spec status 30 0 (by omega)
  rw [show 10 * 0 = 0 from rfl] at h
  exact ⟨fun w => rfl, h.2.1, h.2.2.1, h.2.2.2.1,
    fun j hj => h.2.2.2.2 j (Nat.zero_le j) hj⟩

theorem poll_loop_bounded_witness :
    (poll_loop (fun _ => "completed") 0 0).1 ≤ 30 :=
  (poll_loop_bounded (fun _ => "completed")).2.1

/-- C4: after the polling loop exits, `process_results` runs (writing
`solution.csv`) exactly when one fresh job-status query answers
`completed`; otherwise the script only prints the timeout message and
writes nothing. -/
theorem process_results_iff_completed (status : Nat → String) :
    ((execute_after_loop status).processed = true ↔
      status ((poll_loop status 0 0).1 + 1) = "completed") ∧
    (status ((poll_loop status 0 0).1 + 1) = "completed" →
      execute_after_loop status =
        { processed := true, wrote := ["solution.csv"], printed := [] }) ∧
    (status ((poll_loop status 0 0).1 + 1) ≠ "completed" →
      execute_after_loop status =
        { processed := false, wrote := [],
          printed := ["Job hasn't completed successfully in 5 minutes."] }) := by
  by_cases h : status ((poll_loop status 0 0).1 + 1) = "completed" <;>
    simp [execute_after_loop, h]

theorem process_results_iff_completed_witness :
    execute_after_loop (fun _ => "completed") =
      { processed := true, wrote := ["solution.csv"], printed := [] } :=
  (process_results_iff_completed (fun _ => "completed")).2.1 rfl

end Watson
